import Mathlib

/-!
Shallow embedding of the session/rate-limit core of the conversational-commerce
backend (`app/services/session_manager.py` and `app/middleware/rate_limit.py`).

The Redis store is modelled as explicit state: each key family
(`session:<id>`, `device_sessions:<deviceId>`, `user_sessions:<userId>`,
`ratelimit:<identity>:<minute>`) lives in its own field of `Store`, keyed by the
part after the prefix (the string prefixes in `_key`, `_device_sessions_key`,
`_user_sessions_key` only serve to separate the key families inside one Redis
namespace, which the separate fields already do; the rate-limit key keeps its
`identity:minute` composite because both parts vary).  TTLs are recorded
symbolically (the value passed to SETEX/EXPIRE); expiry itself is represented by
a key simply being absent.  Wall-clock readings (`datetime.utcnow()`) are passed
in as explicit string arguments, one per `utcnow()` call in the source.  Python
falsiness of optional string arguments (`if not user_id`) is modelled by
`truthy`.
-/

namespace ChatShop

/-- Pointwise update of a string-keyed map, the effect of a single Redis write. -/
def upd {α : Type} (f : String → α) (k : String) (v : α) : String → α :=
  fun q => if q = k then v else f q

/-- Lexicographic comparison of character lists by code point; this is how
Python compares the ISO-8601 `last_activity` strings in `sort(key=...)`. -/
def charListLe : List Char → List Char → Bool
  | [], _ => true
  | _ :: _, [] => false
  | a :: as, b :: bs =>
    if a.toNat < b.toNat then true
    else if b.toNat < a.toNat then false
    else charListLe as bs

/-- String comparison used by the embedded sorts (Python `<=` on strings). -/
def strLe (a b : String) : Bool := charListLe a.data b.data

/-- Insert an element into a sorted list, passing over every element already
`le` it; together with `sortLe` this models Python `list.sort(key=...)`
(a stable comparison sort — only the permutation and sortedness facts proved
below are used). -/
def insertLe {α : Type} (le : α → α → Bool) (a : α) : List α → List α
  | [] => [a]
  | b :: l => if le b a then b :: insertLe le a l else a :: b :: l

/-- Comparison sort of a list, modelling Python `list.sort(key=...)`. -/
def sortLe {α : Type} (le : α → α → Bool) : List α → List α
  | [] => []
  | a :: l => insertLe le a (sortLe le l)

/-- One entry of a session's `messages` list, as built by `add_message`
(`role`, `content`, `timestamp`, plus the `**kwargs` metadata). -/
structure Message where
  role : String
  content : String
  timestamp : String
  metadata : List (String × String)
deriving DecidableEq

/-- The session record stored under `session:<id>` — the JSON object built in
`SessionManager.create` (the `upgraded_at` key is absent until
`upgrade_to_authenticated` adds it, modelled as an `Option`). -/
structure Session where
  session_id : String
  user_id : Option String
  device_id : Option String
  is_authenticated : Bool
  created_at : String
  last_activity : String
  messages : List Message
  context : List (String × String)
  guest_info : Option (List (String × String))
  upgraded_at : Option String
deriving DecidableEq

/-- The shared Redis state, one field per key family; `none` / `[]` means the
key is absent (or TTL-expired).  TTL fields record the last duration passed to
SETEX/EXPIRE. -/
structure Store where
  sessions : String → Option Session
  sessionTTL : String → Option Nat
  deviceIndex : String → List String
  deviceIndexTTL : String → Option Nat
  userIndex : String → List String
  userIndexTTL : String → Option Nat
  rateCount : String → Option Nat
  rateTTL : String → Option Nat

/-- A Redis instance with no keys. -/
def emptyStore : Store where
  sessions := fun _ => none
  sessionTTL := fun _ => none
  deviceIndex := fun _ => []
  deviceIndexTTL := fun _ => none
  userIndex := fun _ => []
  userIndexTTL := fun _ => none
  rateCount := fun _ => none
  rateTTL := fun _ => none

/-- Models `redis.get(session:<id>)` — read-only. -/
def Store.getSession (st : Store) (sid : String) : Option Session :=
  st.sessions sid

/-- Models `redis.setex(session:<id>, ttl, json)` — writes the record and resets its TTL. -/
def Store.setexSession (st : Store) (sid : String) (ttl : Nat) (s : Session) : Store :=
  { st with
    sessions := upd st.sessions sid (some s)
    sessionTTL := upd st.sessionTTL sid (some ttl) }

/-- Models `redis.exists(session:<id>)`. -/
def Store.existsSession (st : Store) (sid : String) : Bool :=
  (st.sessions sid).isSome

/-- Models `redis.expire(session:<id>, ttl)`. -/
def Store.expireSession (st : Store) (sid : String) (ttl : Nat) : Store :=
  { st with sessionTTL := upd st.sessionTTL sid (some ttl) }

/-- Models `redis.delete(session:<id>)`. -/
def Store.delSession (st : Store) (sid : String) : Store :=
  { st with
    sessions := upd st.sessions sid none
    sessionTTL := upd st.sessionTTL sid none }

/-- Models `redis.sadd(device_sessions:<d>, sid)` — Redis set membership add. -/
def Store.saddDevice (st : Store) (d sid : String) : Store :=
  if sid ∈ st.deviceIndex d then st
  else { st with deviceIndex := upd st.deviceIndex d (st.deviceIndex d ++ [sid]) }

/-- Models `redis.expire(device_sessions:<d>, ttl)`. -/
def Store.expireDevice (st : Store) (d : String) (ttl : Nat) : Store :=
  { st with deviceIndexTTL := upd st.deviceIndexTTL d (some ttl) }

/-- Models `redis.sadd(user_sessions:<u>, sid)`. -/
def Store.saddUser (st : Store) (u sid : String) : Store :=
  if sid ∈ st.userIndex u then st
  else { st with userIndex := upd st.userIndex u (st.userIndex u ++ [sid]) }

/-- Models `redis.expire(user_sessions:<u>, ttl)`. -/
def Store.expireUser (st : Store) (u : String) (ttl : Nat) : Store :=
  { st with userIndexTTL := upd st.userIndexTTL u (some ttl) }

/-- Models `redis.incr(key)` — atomic counter increment, creating the key at 1. -/
def Store.incr (st : Store) (k : String) : Store × Nat :=
  let c := (st.rateCount k).getD 0 + 1
  ({ st with rateCount := upd st.rateCount k (some c) }, c)

/-- Models `redis.expire(ratelimit-key, ttl)`. -/
def Store.expireRate (st : Store) (k : String) (ttl : Nat) : Store :=
  { st with rateTTL := upd st.rateTTL k (some ttl) }

/-- Python truthiness of an optional string argument (`if not user_id`):
`None` and the empty string are both falsy. -/
def truthy : Option String → Bool
  | none => false
  | some s => !(s == "")

/-- Models `SessionManager.create(user_id, device_id, session_id)`.  `ttl` is
`settings.SESSION_TTL`, `freshId` the `uuid.uuid4()` value used when no truthy
`session_id` is supplied, `now` the `datetime.utcnow().isoformat()` reading.
Raising `ValueError` is the `Except.error` branch. -/
def create (ttl : Nat) (st : Store) (user_id device_id session_id : Option String)
    (freshId now : String) : Except Unit (Store × Session) :=
  if !truthy user_id && !truthy device_id then .error ()
  else
    let sid := if truthy session_id then session_id.getD "" else freshId
    let data : Session :=
      { session_id := sid
        user_id := user_id
        device_id := device_id
        is_authenticated := user_id.isSome
        created_at := now
        last_activity := now
        messages := []
        context := []
        guest_info := none
        upgraded_at := none }
    let st1 := st.setexSession sid ttl data
    let st2 :=
      if truthy device_id then
        (st1.saddDevice (device_id.getD "") sid).expireDevice (device_id.getD "") ttl
      else st1
    let st3 :=
      if truthy user_id then
        (st2.saddUser (user_id.getD "") sid).expireUser (user_id.getD "") ttl
      else st2
    .ok (st3, data)

/-- Models `SessionManager.get(session_id)` — a single `redis.get`, read-only. -/
def get (st : Store) (sid : String) : Option Session :=
  st.getSession sid

/-- Models `SessionManager.get` viewed as a store operation: it returns the parsed
record and the store it leaves behind (Redis GET writes nothing). -/
def getOp (st : Store) (sid : String) : Option Session × Store :=
  (st.getSession sid, st)

/-- Models `SessionManager.get_by_device(device_id)` — SMEMBERS on the device index,
then one `get` per member, silently dropping ids whose record is gone. -/
def get_by_device (st : Store) (d : String) : List Session :=
  (st.deviceIndex d).filterMap st.sessions

/-- Comparison on `last_activity` used by `sort(key=lambda s: s["last_activity"])`. -/
def leActivity (a b : Session) : Bool := strLe a.last_activity b.last_activity

/-- Reversed comparison, for `sort(..., reverse=True)`. -/
def geActivity (a b : Session) : Bool := strLe b.last_activity a.last_activity

/-- Models `SessionManager.get_latest_by_device(device_id)` — sorts the live sessions
by `last_activity` descending and returns the first, or `None` when empty. -/
def get_latest_by_device (st : Store) (d : String) : Option Session :=
  match sortLe geActivity (get_by_device st d) with
  | [] => none
  | s :: _ => some s

/-- Models `SessionManager.update(session_id, data)` — stamps `last_activity` and
rewrites the record with a fresh TTL; also returns the (mutated-in-place)
dictionary the callers keep using. -/
def update (ttl : Nat) (st : Store) (sid : String) (data : Session) (now : String) :
    Store × Session :=
  let d := { data with last_activity := now }
  (st.setexSession sid ttl d, d)

/-- Models `SessionManager.extend_ttl(session_id)`. -/
def extend_ttl (ttl : Nat) (st : Store) (sid : String) : Store × Bool :=
  if st.existsSession sid then (st.expireSession sid ttl, true) else (st, false)

/-- Models `SessionManager.upgrade_to_authenticated(session_id, user_id)`. -/
def upgrade_to_authenticated (ttl : Nat) (st : Store) (sid user_id now : String) :
    Except Unit (Store × Session) :=
  match st.getSession sid with
  | none => .error ()
  | some session =>
    let s1 : Session :=
      { session with
        user_id := some user_id
        is_authenticated := true
        upgraded_at := some now }
    let st1 := (st.saddUser user_id sid).expireUser user_id ttl
    let r := update ttl st1 sid s1 now
    .ok (r.1, r.2)

/-- The single call of the `add_message` Lua script (`EVAL`): GET, append,
trim to the most recent 50, stamp `last_activity`, SETEX — or, when the key is
absent, return nil having written nothing.  `mts` is the `timestamp` put inside
the message, `now` the `ARGV[3]` activity stamp (two separate `utcnow()` calls
in the source).  The `Bool` is whether the script returned 1; the Python
wrapper raises `ValueError` on `false`. -/
def add_message (ttl : Nat) (st : Store) (sid role content mts now : String)
    (metadata : List (String × String)) : Store × Bool :=
  match st.getSession sid with
  | none => (st, false)
  | some session =>
    let m : Message := { role := role, content := content, timestamp := mts, metadata := metadata }
    let ms := session.messages ++ [m]
    let ms2 := if ms.length > 50 then ms.drop (ms.length - 50) else ms
    let s2 := { session with messages := ms2, last_activity := now }
    (st.setexSession sid ttl s2, true)

/-- Models `SessionManager.set_guest_info(session_id, guest_info)`. -/
def set_guest_info (ttl : Nat) (st : Store) (sid : String)
    (info : List (String × String)) (now : String) : Except Unit Store :=
  match st.getSession sid with
  | none => .error ()
  | some session =>
    .ok (update ttl st sid { session with guest_info := some info } now).1

/-- The loop body of `migrate_device_sessions`: upgrade each listed session id
in turn; an exception from `upgrade_to_authenticated` aborts the loop, keeping
the mutations made so far. -/
def migrateList (ttl : Nat) (user_id now : String) (st : Store) : List String → Store
  | [] => st
  | sid :: rest =>
    match upgrade_to_authenticated ttl st sid user_id now with
    | .error _ => st
    | .ok (st1, _) => migrateList ttl user_id now st1 rest

/-- Models `SessionManager.migrate_device_sessions(device_id, user_id)` — upgrades
every live session of the device; returns the number enumerated. -/
def migrate_device_sessions (ttl : Nat) (st : Store) (device_id user_id now : String) :
    Store × Nat :=
  let ss := get_by_device st device_id
  (migrateList ttl user_id now st (ss.map Session.session_id), ss.length)

/-- Models `SessionManager.cleanup_device_sessions(device_id, keep_latest)` — fetch
the live sessions, keep all when there are at most `keep_latest`, otherwise
sort ascending by `last_activity` and delete the records of `sessions[:-keep_latest]`
(for `keep_latest = 0` that Python slice is empty). -/
def cleanup_device_sessions (st : Store) (device_id : String) (keep_latest : Nat) :
    Store × Nat :=
  let ss := get_by_device st device_id
  if ss.length ≤ keep_latest then (st, 0)
  else
    let sorted := sortLe leActivity ss
    let toDelete := if keep_latest = 0 then [] else sorted.take (sorted.length - keep_latest)
    (toDelete.foldl (fun s x => s.delSession x.session_id) st, toDelete.length)

/-- The counter key `ratelimit:<identity>:<minute>` built in
`RateLimiter.check_rate_limit` (the window bucket is the current UTC minute). -/
def rateKey (identity : String) (minute : Nat) : String :=
  "ratelimit:" ++ identity ++ ":" ++ toString minute

/-- Models `RateLimiter.check_rate_limit(identity, max_requests, window_seconds)`:
INCR, set the TTL when the increment created the key, then raise 429 when the
post-increment count exceeds the limit (the increment stays persisted), else
return the count. -/
def check_rate_limit (st : Store) (identity : String) (minute : Nat)
    (max_requests window_seconds : Nat) : Store × Except Unit Nat :=
  let key := rateKey identity minute
  let r := st.incr key
  let st2 := if r.2 = 1 then r.1.expireRate key window_seconds else r.1
  if r.2 > max_requests then (st2, .error ()) else (st2, .ok r.2)


-- === auxiliary definitions ===

/-- Runs `n` sequential `check_rate_limit` calls for one identity inside one window
bucket, collecting each call's outcome in order. -/
def rateTrace (identity : String) (minute max_requests window_seconds : Nat)
    (st : Store) : Nat → Store × List (Except Unit Nat)
  | 0 => (st, [])
  | n + 1 =>
    let p := rateTrace identity minute max_requests window_seconds st n
    let q := check_rate_limit p.1 identity minute max_requests window_seconds
    (q.1, p.2 ++ [q.2])

/-- The arguments of one `add_message` call (role, content, the two `utcnow()`
readings, and the `**kwargs` metadata). -/
structure MsgCall where
  role : String
  content : String
  mts : String
  now : String
  metadata : List (String × String)
deriving DecidableEq

/-- The message object a call appends. -/
def MsgCall.toMessage (c : MsgCall) : Message :=
  { role := c.role, content := c.content, timestamp := c.mts, metadata := c.metadata }

/-- A sequence of `add_message` calls on one session, returning the final store
and how many of the calls succeeded. -/
def addMany (ttl : Nat) (sid : String) (st : Store) : List MsgCall → Store × Nat
  | [] => (st, 0)
  | c :: cs =>
    let p := add_message ttl st sid c.role c.content c.mts c.now c.metadata
    let q := addMany ttl sid p.1 cs
    (q.1, (if p.2 then 1 else 0) + q.2)

/-- One invocation of a public `SessionManager` operation, with its arguments. -/
inductive Op where
  | opCreate (user_id device_id session_id : Option String) (freshId now : String)
  | opAddMessage (sid role content mts now : String) (metadata : List (String × String))
  | opUpgrade (sid user_id now : String)
  | opSetGuestInfo (sid : String) (info : List (String × String)) (now : String)
  | opExtendTtl (sid : String)
  | opCleanup (device_id : String) (keep_latest : Nat)
  | opMigrate (device_id user_id now : String)

/-- The store an operation leaves behind (an operation that raises leaves the
store it had mutated so far; for the single-key operations that is the prior
store). -/
def applyOp (ttl : Nat) (st : Store) : Op → Store
  | .opCreate u d s f now =>
    match create ttl st u d s f now with
    | .ok (st1, _) => st1
    | .error _ => st
  | .opAddMessage sid r c mts now md => (add_message ttl st sid r c mts now md).1
  | .opUpgrade sid u now =>
    match upgrade_to_authenticated ttl st sid u now with
    | .ok (st1, _) => st1
    | .error _ => st
  | .opSetGuestInfo sid info now =>
    match set_guest_info ttl st sid info now with
    | .ok st1 => st1
    | .error _ => st
  | .opExtendTtl sid => (extend_ttl ttl st sid).1
  | .opCleanup d k => (cleanup_device_sessions st d k).1
  | .opMigrate d u now => (migrate_device_sessions ttl st d u now).1

/-- Every stored session record carries at least one identity field. -/
def InvOwner (st : Store) : Prop :=
  ∀ sid s, st.sessions sid = some s → (s.user_id.isSome = true ∨ s.device_id.isSome = true)

-- === concrete fixtures used by the witnesses ===

/-- A guest session record as `create` would build it. -/
def guestSess (sid d act : String) : Session :=
  { session_id := sid
    user_id := none
    device_id := some d
    is_authenticated := false
    created_at := act
    last_activity := act
    messages := []
    context := []
    guest_info := none
    upgraded_at := none }

/-- A store holding one guest session `"s1"` of device `"d1"`, as left by
`create 1800 emptyStore none (some "d1") none "s1" "t0"`. -/
def oneSessStore : Store :=
  match create 1800 emptyStore none (some "d1") none "s1" "t0" with
  | .ok (st, _) => st
  | .error _ => emptyStore

/-- Two concrete `add_message` calls (a user turn and an assistant turn). -/
def c1Calls : List MsgCall :=
  [{ role := "user", content := "hi", mts := "t1", now := "t1", metadata := [] },
   { role := "assistant", content := "yo", mts := "t2", now := "t2", metadata := [] }]

/-- The session record left under `"s1"` after running `c1Calls` on
`oneSessStore`. -/
def c1Final : Session :=
  match (addMany 1800 "s1" oneSessStore c1Calls).1.sessions "s1" with
  | some s => s
  | none => guestSess "s1" "d1" "t0"

/-- The store left by upgrading `oneSessStore`'s session `"s1"` to user
`"u1"` at time `"t5"`. -/
def upStore : Store :=
  match upgrade_to_authenticated 1800 oneSessStore "s1" "u1" "t5" with
  | .ok (st, _) => st
  | .error _ => emptyStore

/-- The session returned by that upgrade. -/
def upSess : Session :=
  match upgrade_to_authenticated 1800 oneSessStore "s1" "u1" "t5" with
  | .ok (_, s) => s
  | .error _ => guestSess "s1" "d1" "t0"

/-- The store left by re-creating session `"s1"` (already present in
`oneSessStore`) for device `"d2"` at time `"t9"`. -/
def overwriteStore : Store :=
  match create 1800 oneSessStore none (some "d2") (some "s1") "fresh9" "t9" with
  | .ok (st, _) => st
  | .error _ => emptyStore

/-- A store with six guest sessions of device `"dev"`, with distinct ids and
pairwise distinct `last_activity` stamps. -/
def sixSessStore : Store :=
  { emptyStore with
    sessions := fun q =>
      if q = "a" then some (guestSess "a" "dev" "2024-01-01")
      else if q = "b" then some (guestSess "b" "dev" "2024-01-04")
      else if q = "c" then some (guestSess "c" "dev" "2024-01-02")
      else if q = "d" then some (guestSess "d" "dev" "2024-01-06")
      else if q = "e" then some (guestSess "e" "dev" "2024-01-03")
      else if q = "f" then some (guestSess "f" "dev" "2024-01-05")
      else none
    deviceIndex := fun q => if q = "dev" then ["a", "b", "c", "d", "e", "f"] else [] }

-- === theorems ===

theorem upd_same {α : Type} (f : String → α) (k : String) (v : α) : upd f k v k = v := by
  simp [upd]

theorem upd_other {α : Type} (f : String → α) (k : String) (v : α) (q : String)
    (h : q ≠ k) : upd f k v q = f q := by
  simp [upd, h]

theorem upd_self {α : Type} (f : String → α) (k : String) (v : α) (h : f k = v) :
    upd f k v = f := by
  funext q
  unfold upd
  split
  · rename_i hq; subst hq; exact h.symm
  · rfl

theorem charListLe_refl (l : List Char) : charListLe l l = true := by
  induction l with
  | nil => rfl
  | cons a as ih => simp [charListLe, ih]

theorem strLe_refl (s : String) : strLe s s = true := charListLe_refl s.data

theorem charListLe_total (a b : List Char) :
    charListLe a b = true ∨ charListLe b a = true := by
  induction a generalizing b with
  | nil => left; rfl
  | cons x xs ih =>
    cases b with
    | nil => right; rfl
    | cons y ys =>
      by_cases h1 : x.toNat < y.toNat
      · left; simp [charListLe, h1]
      · by_cases h2 : y.toNat < x.toNat
        · right; simp [charListLe, h2]
        · rcases ih ys with h | h
          · left; simp [charListLe, h1, h2, h]
          · right; simp [charListLe, h1, h2, h]

theorem charListLe_trans (a b c : List Char)
    (hab : charListLe a b = true) (hbc : charListLe b c = true) :
    charListLe a c = true := by
  induction a generalizing b c with
  | nil => rfl
  | cons x xs ih =>
    cases b with
    | nil => simp [charListLe] at hab
    | cons y ys =>
      cases c with
      | nil => simp [charListLe] at hbc
      | cons z zs =>
        by_cases h1 : x.toNat < y.toNat <;> by_cases h2 : y.toNat < x.toNat <;>
          by_cases h3 : y.toNat < z.toNat <;> by_cases h4 : z.toNat < y.toNat <;>
            simp [charListLe, h1, h2, h3, h4] at hab hbc ⊢ <;>
              first
                | omega
                | exact Or.inr ⟨by omega, ih ys zs hab hbc⟩

theorem strLe_total (a b : String) : strLe a b = true ∨ strLe b a = true :=
  charListLe_total a.data b.data

theorem strLe_trans (a b c : String) (hab : strLe a b = true) (hbc : strLe b c = true) :
    strLe a c = true :=
  charListLe_trans a.data b.data c.data hab hbc

theorem insertLe_perm {α : Type} (le : α → α → Bool) (a : α) (l : List α) :
    List.Perm (insertLe le a l) (a :: l) := by
  induction l with
  | nil => exact List.Perm.refl _
  | cons b t ih =>
    unfold insertLe
    split
    · exact (ih.cons b).trans (List.Perm.swap a b t)
    · exact List.Perm.refl _

theorem sortLe_perm {α : Type} (le : α → α → Bool) (l : List α) : List.Perm (sortLe le l) l := by
  induction l with
  | nil => exact List.Perm.refl _
  | cons a t ih => exact (insertLe_perm le a (sortLe le t)).trans (ih.cons a)

theorem insertLe_sorted {α : Type} (le : α → α → Bool)
    (htrans : ∀ a b c, le a b = true → le b c = true → le a c = true)
    (htot : ∀ a b, le a b = true ∨ le b a = true)
    (a : α) (l : List α) (hl : l.Pairwise (fun x y => le x y = true)) :
    (insertLe le a l).Pairwise (fun x y => le x y = true) := by
  induction l with
  | nil => simp [insertLe]
  | cons b t ih =>
    rw [List.pairwise_cons] at hl
    unfold insertLe
    split
    · rename_i hba
      rw [List.pairwise_cons]
      refine ⟨?_, ih hl.2⟩
      intro x hx
      rcases List.mem_cons.mp ((insertLe_perm le a t).mem_iff.mp hx) with hx | hx
      · subst hx; exact hba
      · exact hl.1 x hx
    · rename_i hba
      rcases htot a b with hab | hab
      · rw [List.pairwise_cons]
        refine ⟨?_, List.pairwise_cons.mpr hl⟩
        intro x hx
        rcases List.mem_cons.mp hx with hx | hx
        · subst hx; exact hab
        · exact htrans a b x hab (hl.1 x hx)
      · exact absurd hab hba

theorem sortLe_sorted {α : Type} (le : α → α → Bool)
    (htrans : ∀ a b c, le a b = true → le b c = true → le a c = true)
    (htot : ∀ a b, le a b = true ∨ le b a = true)
    (l : List α) : (sortLe le l).Pairwise (fun x y => le x y = true) := by
  induction l with
  | nil => simp [sortLe]
  | cons a t ih => exact insertLe_sorted le htrans htot a (sortLe le t) ih

theorem sortLe_length {α : Type} (le : α → α → Bool) (l : List α) :
    (sortLe le l).length = l.length :=
  (sortLe_perm le l).length_eq

theorem sortLe_mem {α : Type} (le : α → α → Bool) (l : List α) (x : α) :
    x ∈ sortLe le l ↔ x ∈ l :=
  (sortLe_perm le l).mem_iff

@[simp] theorem saddDevice_sessions (st : Store) (d sid : String) :
    (st.saddDevice d sid).sessions = st.sessions := by
  unfold Store.saddDevice; split <;> rfl

@[simp] theorem saddDevice_sessionTTL (st : Store) (d sid : String) :
    (st.saddDevice d sid).sessionTTL = st.sessionTTL := by
  unfold Store.saddDevice; split <;> rfl

@[simp] theorem saddDevice_userIndex (st : Store) (d sid : String) :
    (st.saddDevice d sid).userIndex = st.userIndex := by
  unfold Store.saddDevice; split <;> rfl

@[simp] theorem saddDevice_userIndexTTL (st : Store) (d sid : String) :
    (st.saddDevice d sid).userIndexTTL = st.userIndexTTL := by
  unfold Store.saddDevice; split <;> rfl

@[simp] theorem saddUser_sessions (st : Store) (u sid : String) :
    (st.saddUser u sid).sessions = st.sessions := by
  unfold Store.saddUser; split <;> rfl

@[simp] theorem saddUser_sessionTTL (st : Store) (u sid : String) :
    (st.saddUser u sid).sessionTTL = st.sessionTTL := by
  unfold Store.saddUser; split <;> rfl

@[simp] theorem saddUser_deviceIndex (st : Store) (u sid : String) :
    (st.saddUser u sid).deviceIndex = st.deviceIndex := by
  unfold Store.saddUser; split <;> rfl

@[simp] theorem saddUser_deviceIndexTTL (st : Store) (u sid : String) :
    (st.saddUser u sid).deviceIndexTTL = st.deviceIndexTTL := by
  unfold Store.saddUser; split <;> rfl

theorem saddUser_mem_self (st : Store) (u sid : String) :
    sid ∈ (st.saddUser u sid).userIndex u := by
  unfold Store.saddUser
  split
  · assumption
  · simp [upd_same]

/-- C2: `AddMessage` fails exactly when the session key is absent at execution
time, and on that failure the Lua script writes nothing, so the store is
unchanged — no message, no TTL, no other key. -/
theorem addMessage_absent_fails_store_unchanged
    (ttl : Nat) (st : Store) (sid role content mts now : String)
    (metadata : List (String × String)) :
    ((add_message ttl st sid role content mts now metadata).2 = false ↔
      st.sessions sid = none) ∧
    (st.sessions sid = none →
      (add_message ttl st sid role content mts now metadata).1 = st) := by
  cases h : st.sessions sid <;> simp [add_message, Store.getSession, h]

/-- Witness for C2 at a concrete store with no session. -/
theorem addMessage_absent_fails_store_unchanged_witness :
    (add_message 1800 emptyStore "s1" "user" "hello" "t1" "t1" []).1 = emptyStore :=
  (addMessage_absent_fails_store_unchanged 1800 emptyStore "s1" "user" "hello" "t1" "t1" []).2 rfl

theorem check_rate_limit_spec (st : Store) (identity : String) (minute maxR window : Nat) :
    (check_rate_limit st identity minute maxR window).1.rateCount (rateKey identity minute) =
      some ((st.rateCount (rateKey identity minute)).getD 0 + 1) ∧
    (check_rate_limit st identity minute maxR window).2 =
      (if (st.rateCount (rateKey identity minute)).getD 0 + 1 > maxR then Except.error ()
       else Except.ok ((st.rateCount (rateKey identity minute)).getD 0 + 1)) := by
  simp only [check_rate_limit, Store.incr, Store.expireRate]
  constructor
  · split <;> split <;> simp [upd_same]
  · split <;> simp_all

theorem rateTrace_spec (identity : String) (minute maxR window : Nat) (st : Store)
    (h : st.rateCount (rateKey identity minute) = none) (n : Nat) :
    (rateTrace identity minute maxR window st n).1.rateCount (rateKey identity minute) =
      (if n = 0 then none else some n) ∧
    (rateTrace identity minute maxR window st n).2 =
      (List.range n).map
        (fun k => if k + 1 > maxR then Except.error () else Except.ok (k + 1)) := by
  induction n with
  | zero => exact ⟨by simpa [rateTrace] using h, by simp [rateTrace]⟩
  | succ n ih =>
    obtain ⟨ih1, ih2⟩ := ih
    have hq := check_rate_limit_spec
      (rateTrace identity minute maxR window st n).1 identity minute maxR window
    have hcnt : ((rateTrace identity minute maxR window st n).1.rateCount
        (rateKey identity minute)).getD 0 + 1 = n + 1 := by
      rw [ih1]; by_cases hn : n = 0 <;> simp [hn]
    rw [hcnt] at hq
    constructor
    · show (check_rate_limit (rateTrace identity minute maxR window st n).1
        identity minute maxR window).1.rateCount (rateKey identity minute) = _
      rw [hq.1]; simp
    · show (rateTrace identity minute maxR window st n).2 ++
        [(check_rate_limit (rateTrace identity minute maxR window st n).1
          identity minute maxR window).2] = _
      rw [ih2, hq.2, List.range_succ, List.map_append]
      rfl

/-- C3: for one identity in one window with `maxRequests = 10`, eleven
sequential `check_rate_limit` calls starting from an absent counter return the
post-increment counts 1..10 and then raise, and the over-limit increment is
persisted: the stored counter reads 11 after the rejected call. -/
theorem rateLimit_first10_counts_then_reject (st : Store) (identity : String) (minute : Nat)
    (h : st.rateCount (rateKey identity minute) = none) :
    (rateTrace identity minute 10 60 st 11).2 =
      [Except.ok 1, Except.ok 2, Except.ok 3, Except.ok 4, Except.ok 5, Except.ok 6,
       Except.ok 7, Except.ok 8, Except.ok 9, Except.ok 10, Except.error ()] ∧
    (rateTrace identity minute 10 60 st 11).1.rateCount (rateKey identity minute) = some 11 := by
  obtain ⟨h1, h2⟩ := rateTrace_spec identity minute 10 60 st h 11
  exact ⟨by rw [h2]; rfl, by simpa using h1⟩

/-- C4 counterexample: supplying the empty string as the user id (with no
device id) is "a user id is supplied", yet `create` still raises
`InvalidIdentity` because Python truthiness treats it as absent — so "fails if
and only if neither a user id nor a device id is supplied" is false as
stated. -/
theorem create_invalid_iff_counterexample :
    create 1800 emptyStore (some "") none none "fresh-id" "t0" = Except.error () ∧
    (some "" : Option String) ≠ none :=
  ⟨rfl, by decide⟩

/-- C4 (amended): `create` fails with `InvalidIdentity` iff neither a truthy
(non-`None`, non-empty) user id nor a truthy device id is supplied; on success
the returned session has empty `messages` and the input owner fields, `get` on
its id immediately returns it, and a session id is generated when none is
supplied. -/
theorem create_invalid_iff_and_get_roundtrip
    (ttl : Nat) (st : Store) (u d s : Option String) (freshId now : String) :
    (create ttl st u d s freshId now = Except.error () ↔
      truthy u = false ∧ truthy d = false) ∧
    (∀ st2 data, create ttl st u d s freshId now = Except.ok (st2, data) →
      get st2 data.session_id = some data ∧ data.messages = [] ∧
      data.user_id = u ∧ data.device_id = d ∧
      (s = none → data.session_id = freshId)) := by
  by_cases hu : truthy u = true <;> by_cases hd : truthy d = true <;>
    simp only [create, hu, hd, Bool.not_true, Bool.not_false, Bool.false_and,
      Bool.and_false, Bool.and_true, Bool.true_and, Bool.and_self, if_true, if_false,
      reduceCtorEq] <;>
    constructor <;>
      try simp_all
  all_goals
    constructor
    · simp [get, Store.getSession, Store.expireUser, Store.expireDevice,
        Store.setexSession, upd_same]
    · intro hs
      subst hs
      simp [truthy]

/-- Witness for C4's amended theorem: create for device `"d1"` then get. -/
theorem create_invalid_iff_and_get_roundtrip_witness :
    get oneSessStore (guestSess "s1" "d1" "t0").session_id = some (guestSess "s1" "d1" "t0") ∧
    (guestSess "s1" "d1" "t0").messages = [] ∧
    (guestSess "s1" "d1" "t0").session_id = "s1" := by
  have h := (create_invalid_iff_and_get_roundtrip 1800 emptyStore none (some "d1") none
    "s1" "t0").2 oneSessStore (guestSess "s1" "d1" "t0") rfl
  exact ⟨h.1, h.2.1, h.2.2.2.2 rfl⟩

/-- C10: a supplied (truthy) session id is used as-is with no existence check:
`create` on a store already holding a session under that id succeeds and
unconditionally overwrites it with a fresh empty record (`messages = []`,
`guest_info = None`, empty `context`, new `created_at`). -/
theorem create_overwrites_existing
    (ttl : Nat) (st : Store) (sid : String) (sOld : Session) (u d : Option String)
    (freshId now : String)
    (_hprior : st.sessions sid = some sOld)
    (hown : truthy u = true ∨ truthy d = true)
    (hsid : sid ≠ "") :
    (create ttl st u d (some sid) freshId now).isOk = true ∧
    (∀ st2 data, create ttl st u d (some sid) freshId now = Except.ok (st2, data) →
      data.session_id = sid ∧ st2.sessions sid = some data ∧ data.messages = [] ∧
      data.created_at = now ∧ data.guest_info = none ∧ data.context = []) := by
  have hts : truthy (some sid) = true := by simp [truthy, hsid]
  have hguard : (!truthy u && !truthy d) = false := by
    rcases hown with h | h <;> simp [h]
  constructor
  · simp [create, hguard, Except.isOk, Except.toBool]
  · intro st2 data heq
    simp only [create, hguard, Bool.false_eq_true, if_false, hts, if_true] at heq
    rw [Except.ok.injEq, Prod.mk.injEq] at heq
    obtain ⟨hst2, hdata⟩ := heq
    subst hst2
    subst hdata
    refine ⟨by simp, ?_, rfl, rfl, rfl, rfl⟩
    split <;> split <;>
      simp [Store.expireUser, Store.expireDevice, Store.setexSession, upd_same]

/-- Witness for C10: re-creating the live session `"s1"` of `oneSessStore`. -/
theorem create_overwrites_existing_witness :
    (create 1800 oneSessStore none (some "d2") (some "s1") "fresh9" "t9").isOk = true ∧
    (guestSess "s1" "d2" "t9").session_id = "s1" ∧
    overwriteStore.sessions "s1" = some (guestSess "s1" "d2" "t9") ∧
    (guestSess "s1" "d2" "t9").messages = [] := by
  have h := create_overwrites_existing 1800 oneSessStore "s1" (guestSess "s1" "d1" "t0")
    none (some "d2") "fresh9" "t9" rfl (Or.inr rfl) (by decide)
  have h2 := h.2 overwriteStore (guestSess "s1" "d2" "t9") rfl
  exact ⟨h.1, h2.1, h2.2.1, h2.2.2.1⟩

/-- C5: every mutating session operation — `create`, `add_message`,
`upgrade_to_authenticated`, `set_guest_info` — ends in a SETEX of the record,
resetting its TTL to the configured value, while `get` is a single read that
leaves the store (TTLs included) untouched. -/
theorem mutating_ops_reset_ttl_get_pure
    (ttl : Nat) (st : Store) (sid uid role content mts now : String)
    (u d s : Option String) (freshId : String)
    (info metadata : List (String × String)) :
    (∀ st2 data, create ttl st u d s freshId now = Except.ok (st2, data) →
      st2.sessionTTL data.session_id = some ttl) ∧
    (st.sessions sid ≠ none →
      (add_message ttl st sid role content mts now metadata).1.sessionTTL sid = some ttl) ∧
    (∀ st2 s2, upgrade_to_authenticated ttl st sid uid now = Except.ok (st2, s2) →
      st2.sessionTTL sid = some ttl) ∧
    (∀ st2, set_guest_info ttl st sid info now = Except.ok st2 →
      st2.sessionTTL sid = some ttl) ∧
    (getOp st sid).2 = st := by
  refine ⟨?_, ?_, ?_, ?_, rfl⟩
  · intro st2 data heq
    by_cases hu : truthy u = true <;> by_cases hd : truthy d = true <;>
      simp only [create, hu, hd, Bool.not_true, Bool.not_false, Bool.false_and,
        Bool.and_false, Bool.and_true, Bool.true_and, Bool.and_self, if_true, if_false,
        reduceCtorEq] at heq <;>
      (rw [Except.ok.injEq, Prod.mk.injEq] at heq
       obtain ⟨hst2, hdata⟩ := heq
       subst hst2
       subst hdata
       simp [Store.expireUser, Store.expireDevice, Store.setexSession, upd_same])
  · intro hne
    cases h : st.sessions sid with
    | none => exact absurd h hne
    | some s0 => simp [add_message, Store.getSession, h, Store.setexSession, upd_same]
  · intro st2 s2 heq
    cases h : st.sessions sid with
    | none => simp [upgrade_to_authenticated, Store.getSession, h] at heq
    | some s0 =>
      simp only [upgrade_to_authenticated, Store.getSession, h] at heq
      rw [Except.ok.injEq, Prod.mk.injEq] at heq
      obtain ⟨hst2, _⟩ := heq
      subst hst2
      simp [update, Store.expireUser, Store.setexSession, upd_same]
  · intro st2 heq
    cases h : st.sessions sid with
    | none => simp [set_guest_info, Store.getSession, h] at heq
    | some s0 =>
      simp only [set_guest_info, Store.getSession, h, Except.ok.injEq] at heq
      subst heq
      simp [update, Store.setexSession, upd_same]

/-- Witness for C5 at `oneSessStore`: an append resets the TTL and a read
changes nothing. -/
theorem mutating_ops_reset_ttl_get_pure_witness :
    (add_message 1800 oneSessStore "s1" "user" "m" "t1" "t1" []).1.sessionTTL "s1" =
      some 1800 ∧
    (getOp oneSessStore "s1").2 = oneSessStore := by
  have h := mutating_ops_reset_ttl_get_pure 1800 oneSessStore "s1" "u1" "user" "m" "t1"
    "t1" none (some "d1") none "f" [] []
  exact ⟨h.2.1 (by decide), h.2.2.2.2⟩

theorem suffix_append_right {α : Type} {l1 l2 : List α} (l3 : List α) (h : l1 <:+ l2) :
    l1 ++ l3 <:+ l2 ++ l3 := by
  obtain ⟨c, hc⟩ := h
  exact ⟨c, by rw [← hc, List.append_assoc]⟩

/-- C1: `add_message` reads the record, appends the new message at the end,
trims to the most recent 50 (dropping only the oldest), stamps `last_activity`
and rewrites — all as the single atomic Lua step modelled by one state
transition; consequently a sequence of `N` calls on a session holding `c ≤ 50`
messages all succeed, the final length is `min (N + c) 50`, the surviving
messages are a suffix of the original list followed by the appended messages
in arrival order (no duplication, loss only of the oldest), and
`last_activity` carries the last call's stamp. -/
theorem addMessage_fold_spec
    (ttl : Nat) (sid : String) (st : Store) (s0 : Session)
    (h0 : st.sessions sid = some s0) (hlen : s0.messages.length ≤ 50)
    (calls : List MsgCall) :
    (addMany ttl sid st calls).2 = calls.length ∧
    ((addMany ttl sid st calls).1.sessions sid).isSome = true ∧
    ∀ s1, (addMany ttl sid st calls).1.sessions sid = some s1 →
      s1.messages.length = min (calls.length + s0.messages.length) 50 ∧
      s1.messages <:+ s0.messages ++ calls.map MsgCall.toMessage ∧
      (∀ c, calls.getLast? = some c → s1.last_activity = c.now) := by
  induction calls generalizing st s0 with
  | nil =>
    refine ⟨rfl, by simp [addMany, h0], ?_⟩
    intro s1 hs1
    simp only [addMany, h0, Option.some.injEq] at hs1
    subst hs1
    refine ⟨by simp only [List.length_nil, Nat.zero_add]; omega, by simp, by simp⟩
  | cons c cs ih =>
    have hmsg :
        add_message ttl st sid c.role c.content c.mts c.now c.metadata =
          (st.setexSession sid ttl
            { s0 with
              messages :=
                if (s0.messages ++ [c.toMessage]).length > 50 then
                  (s0.messages ++ [c.toMessage]).drop
                    ((s0.messages ++ [c.toMessage]).length - 50)
                else s0.messages ++ [c.toMessage]
              last_activity := c.now }, true) := by
      simp [add_message, Store.getSession, h0, MsgCall.toMessage]
    set ms1 : List Message :=
      if (s0.messages ++ [c.toMessage]).length > 50 then
        (s0.messages ++ [c.toMessage]).drop ((s0.messages ++ [c.toMessage]).length - 50)
      else s0.messages ++ [c.toMessage] with hms1
    set s1 : Session := { s0 with messages := ms1, last_activity := c.now } with hs1def
    have h1 : (st.setexSession sid ttl s1).sessions sid = some s1 := by
      simp [Store.setexSession, upd_same]
    have hlen1 : ms1.length = min (s0.messages.length + 1) 50 := by
      rw [hms1]
      split
      · simp_all
        omega
      · simp_all
    have hle1 : s1.messages.length ≤ 50 := by
      show ms1.length ≤ 50
      omega
    have hsuf1 : ms1 <:+ s0.messages ++ [c.toMessage] := by
      rw [hms1]
      split
      · exact List.drop_suffix _ _
      · exact List.suffix_refl _
    obtain ⟨ihc, ihsome, ihall⟩ := ih (st.setexSession sid ttl s1) s1 h1 hle1
    have hstep :
        addMany ttl sid st (c :: cs) =
          ((addMany ttl sid (st.setexSession sid ttl s1) cs).1,
            1 + (addMany ttl sid (st.setexSession sid ttl s1) cs).2) := by
      simp [addMany, hmsg]
    refine ⟨by rw [hstep]; simp [ihc]; omega, by rw [hstep]; exact ihsome, ?_⟩
    intro s2 hs2
    rw [hstep] at hs2
    obtain ⟨ihlen, ihsuf, ihlast⟩ := ihall s2 hs2
    refine ⟨?_, ?_, ?_⟩
    · rw [ihlen]
      show _ = min ((cs.length + 1) + s0.messages.length) 50
      have : s1.messages.length = min (s0.messages.length + 1) 50 := hlen1
      omega
    · have hsufm : s1.messages ++ cs.map MsgCall.toMessage <:+
          (s0.messages ++ [c.toMessage]) ++ cs.map MsgCall.toMessage :=
        suffix_append_right _ hsuf1
      have heq : (s0.messages ++ [c.toMessage]) ++ cs.map MsgCall.toMessage =
          s0.messages ++ (c :: cs).map MsgCall.toMessage := by
        rw [List.append_assoc]; rfl
      rw [heq] at hsufm
      exact ihsuf.trans hsufm
    · intro cl hcl
      cases cs with
      | nil =>
        simp only [List.getLast?_singleton, Option.some.injEq] at hcl
        subst hcl
        simp only [addMany] at hs2
        rw [h1, Option.some.injEq] at hs2
        subst hs2
        rfl
      | cons c2 cs2 =>
        exact ihlast cl (by rwa [List.getLast?_cons_cons] at hcl)

/-- Witness for C1: two appends on the fresh session of `oneSessStore`. -/
theorem addMessage_fold_spec_witness :
    (addMany 1800 "s1" oneSessStore c1Calls).2 = c1Calls.length ∧
    c1Final.messages.length =
      min (c1Calls.length + (guestSess "s1" "d1" "t0").messages.length) 50 ∧
    c1Final.messages <:+
      (guestSess "s1" "d1" "t0").messages ++ c1Calls.map MsgCall.toMessage ∧
    c1Final.last_activity = "t2" := by
  have h := addMessage_fold_spec 1800 "s1" oneSessStore (guestSess "s1" "d1" "t0")
    rfl (by decide) c1Calls
  have h2 := h.2.2 c1Final (by rfl)
  exact ⟨h.1, h2.1, h2.2.1, h2.2.2 _ rfl⟩

theorem saddUser_already (st : Store) (u sid : String) (h : sid ∈ st.userIndex u) :
    st.saddUser u sid = st := by
  unfold Store.saddUser
  simp [h]

theorem expireUser_already (st : Store) (u : String) (ttl : Nat)
    (h : st.userIndexTTL u = some ttl) : st.expireUser u ttl = st := by
  unfold Store.expireUser
  rw [upd_self _ _ _ h]

theorem setexSession_already (st : Store) (sid : String) (ttl : Nat) (s : Session)
    (h1 : st.sessions sid = some s) (h2 : st.sessionTTL sid = some ttl) :
    st.setexSession sid ttl s = st := by
  unfold Store.setexSession
  rw [upd_self _ _ _ h1, upd_self _ _ _ h2]

/-- C6: `upgrade_to_authenticated` is idempotent — after a successful upgrade
of `sid` to `uid`, running the same call again returns the very same store and
session, so re-upgrading to the same user is a no-op. -/
theorem upgrade_idempotent (ttl : Nat) (st : Store) (sid uid now : String)
    (st1 : Store) (s1 : Session)
    (h : upgrade_to_authenticated ttl st sid uid now = Except.ok (st1, s1)) :
    upgrade_to_authenticated ttl st1 sid uid now = Except.ok (st1, s1) := by
  cases h0 : st.sessions sid with
  | none => simp [upgrade_to_authenticated, Store.getSession, h0] at h
  | some s0 =>
    simp only [upgrade_to_authenticated, Store.getSession, h0, update] at h
    rw [Except.ok.injEq, Prod.mk.injEq] at h
    obtain ⟨hst1, hs1⟩ := h
    subst hst1
    subst hs1
    have hsess : (((st.saddUser uid sid).expireUser uid ttl).setexSession sid ttl
        { s0 with
          user_id := some uid
          is_authenticated := true
          upgraded_at := some now
          last_activity := now }).sessions sid =
        some { s0 with
          user_id := some uid
          is_authenticated := true
          upgraded_at := some now
          last_activity := now } := by
      simp [Store.setexSession, upd_same]
    have httl : (((st.saddUser uid sid).expireUser uid ttl).setexSession sid ttl
        { s0 with
          user_id := some uid
          is_authenticated := true
          upgraded_at := some now
          last_activity := now }).sessionTTL sid = some ttl := by
      simp [Store.setexSession, upd_same]
    have hmem : sid ∈ (((st.saddUser uid sid).expireUser uid ttl).setexSession sid ttl
        { s0 with
          user_id := some uid
          is_authenticated := true
          upgraded_at := some now
          last_activity := now }).userIndex uid :=
      saddUser_mem_self st uid sid
    have huidttl : (((st.saddUser uid sid).expireUser uid ttl).setexSession sid ttl
        { s0 with
          user_id := some uid
          is_authenticated := true
          upgraded_at := some now
          last_activity := now }).userIndexTTL uid = some ttl := by
      simp [Store.setexSession, Store.expireUser, upd_same]
    simp only [upgrade_to_authenticated, Store.getSession, hsess, update]
    rw [saddUser_already _ _ _ hmem, expireUser_already _ _ _ huidttl]
    rw [setexSession_already _ _ _ _ hsess httl]

/-- Witness for C6: the second upgrade of `"s1"` to `"u1"` returns exactly the
store and session the first one produced. -/
theorem upgrade_idempotent_witness :
    upgrade_to_authenticated 1800 upStore "s1" "u1" "t5" = Except.ok (upStore, upSess) :=
  upgrade_idempotent 1800 oneSessStore "s1" "u1" "t5" upStore upSess rfl

theorem geActivity_trans (a b c : Session) (h1 : geActivity a b = true)
    (h2 : geActivity b c = true) : geActivity a c = true :=
  strLe_trans _ _ _ h2 h1

theorem geActivity_total (a b : Session) : geActivity a b = true ∨ geActivity b a = true :=
  strLe_total b.last_activity a.last_activity

theorem leActivity_trans (a b c : Session) (h1 : leActivity a b = true)
    (h2 : leActivity b c = true) : leActivity a c = true :=
  strLe_trans _ _ _ h1 h2

theorem leActivity_total (a b : Session) : leActivity a b = true ∨ leActivity b a = true :=
  strLe_total a.last_activity b.last_activity

/-- C9: `get_by_device` returns exactly the index members whose record still
exists (expired ones are silently skipped); `get_latest_by_device` returns
`none` iff no live session remains, and any session it returns is live and has
maximal `last_activity` under string-lexicographic comparison. -/
theorem getByDevice_live_and_latest_max (st : Store) (d : String) :
    (∀ s, s ∈ get_by_device st d ↔
      ∃ sid, sid ∈ st.deviceIndex d ∧ st.sessions sid = some s) ∧
    (get_latest_by_device st d = none ↔ get_by_device st d = []) ∧
    (∀ r, get_latest_by_device st d = some r →
      r ∈ get_by_device st d ∧
      ∀ s ∈ get_by_device st d, strLe s.last_activity r.last_activity = true) := by
  refine ⟨?_, ?_, ?_⟩
  · intro s
    simp [get_by_device, List.mem_filterMap]
  · have hperm := sortLe_perm geActivity (get_by_device st d)
    unfold get_latest_by_device
    cases hs : sortLe geActivity (get_by_device st d) with
    | nil =>
      rw [hs] at hperm
      simp [hperm.symm.eq_nil]
    | cons x t =>
      rw [hs] at hperm
      constructor
      · intro hx
        exact absurd hx (by simp)
      · intro hL
        rw [hL] at hperm
        exact absurd hperm.eq_nil (by simp)
  · intro r hr
    have hperm := sortLe_perm geActivity (get_by_device st d)
    have hsorted := sortLe_sorted geActivity geActivity_trans geActivity_total
      (get_by_device st d)
    unfold get_latest_by_device at hr
    cases hs : sortLe geActivity (get_by_device st d) with
    | nil =>
      rw [hs] at hr
      exact absurd hr (by simp)
    | cons x t =>
      rw [hs] at hr hperm hsorted
      simp only [Option.some.injEq] at hr
      subst hr
      rw [List.pairwise_cons] at hsorted
      refine ⟨hperm.subset (List.mem_cons_self _ _), ?_⟩
      intro s hsL
      rcases List.mem_cons.mp (hperm.symm.subset hsL) with h | h
      · subst h
        exact strLe_refl _
      · exact hsorted.1 s h

/-- Witness for C9 on `sixSessStore`: the latest session is live and its
`last_activity` dominates another live session's. -/
theorem getByDevice_live_and_latest_max_witness :
    guestSess "d" "dev" "2024-01-06" ∈ get_by_device sixSessStore "dev" ∧
    strLe (guestSess "a" "dev" "2024-01-01").last_activity
      (guestSess "d" "dev" "2024-01-06").last_activity = true := by
  have h := (getByDevice_live_and_latest_max sixSessStore "dev").2.2
    (guestSess "d" "dev" "2024-01-06") (by decide)
  exact ⟨h.1, h.2 _ (by decide)⟩

theorem foldl_delSession_sessions (xs : List Session) (st : Store) (q : String) :
    (xs.foldl (fun s x => s.delSession x.session_id) st).sessions q =
      (if q ∈ xs.map Session.session_id then none else st.sessions q) := by
  induction xs generalizing st with
  | nil => simp
  | cons x rest ih =>
    simp only [List.foldl_cons, ih, List.map_cons, List.mem_cons]
    by_cases hq : q ∈ rest.map Session.session_id
    · simp [hq]
    · by_cases hx : q = x.session_id
      · simp [hq, hx, Store.delSession, upd_same]
      · simp [hq, hx, Store.delSession, upd_other _ _ _ _ hx]

theorem filterMap_sessions_ids_sublist (st : Store) (l : List String)
    (hco : ∀ sid ∈ l, ∀ s, st.sessions sid = some s → s.session_id = sid) :
    List.Sublist ((l.filterMap st.sessions).map Session.session_id) l := by
  induction l with
  | nil => simp
  | cons a rest ih =>
    have ih2 := ih (fun sid h => hco sid (List.mem_cons_of_mem _ h))
    cases h : st.sessions a with
    | none =>
      simp only [List.filterMap_cons, h]
      exact ih2.cons _
    | some s =>
      have hid := hco a (List.mem_cons_self _ _) s h
      simp only [List.filterMap_cons, h, List.map_cons, hid]
      exact ih2.cons₂ _

/-- C7: with `keep_latest = 5`, `cleanup_device_sessions` deletes nothing and
returns 0 when at most 5 live sessions resolve; with `n > 5` live sessions it
returns `n - 5`, the deleted records are exactly the `n - 5` oldest by
`last_activity` (each deleted stamp ≤ each surviving stamp), their keys are
gone, and the 5 most recently active sessions' records are untouched. -/
theorem cleanupDevice_keeps_5_most_recent (st : Store) (d : String)
    (hnd : (st.deviceIndex d).Nodup)
    (hco : ∀ sid ∈ st.deviceIndex d, ∀ s, st.sessions sid = some s → s.session_id = sid) :
    ((get_by_device st d).length ≤ 5 → cleanup_device_sessions st d 5 = (st, 0)) ∧
    (5 < (get_by_device st d).length →
      (cleanup_device_sessions st d 5).2 = (get_by_device st d).length - 5 ∧
      (∀ x ∈ (sortLe leActivity (get_by_device st d)).take
          ((get_by_device st d).length - 5),
        ∀ y ∈ (sortLe leActivity (get_by_device st d)).drop
          ((get_by_device st d).length - 5),
        strLe x.last_activity y.last_activity = true) ∧
      (∀ x ∈ (sortLe leActivity (get_by_device st d)).take
          ((get_by_device st d).length - 5),
        (cleanup_device_sessions st d 5).1.sessions x.session_id = none) ∧
      (∀ y ∈ (sortLe leActivity (get_by_device st d)).drop
          ((get_by_device st d).length - 5),
        (cleanup_device_sessions st d 5).1.sessions y.session_id = some y) ∧
      ((sortLe leActivity (get_by_device st d)).drop
          ((get_by_device st d).length - 5)).length = 5) := by
  constructor
  · intro hle
    simp [cleanup_device_sessions, hle]
  · intro hgt
    have hnle : ¬ (get_by_device st d).length ≤ 5 := by omega
    have hslen : (sortLe leActivity (get_by_device st d)).length =
        (get_by_device st d).length := sortLe_length _ _
    have hclean : cleanup_device_sessions st d 5 =
        (((sortLe leActivity (get_by_device st d)).take
            ((get_by_device st d).length - 5)).foldl
          (fun s x => s.delSession x.session_id) st,
         ((sortLe leActivity (get_by_device st d)).take
            ((get_by_device st d).length - 5)).length) := by
      simp [cleanup_device_sessions, hnle, hslen]
    have htakelen : ((sortLe leActivity (get_by_device st d)).take
        ((get_by_device st d).length - 5)).length =
        (get_by_device st d).length - 5 := by
      rw [List.length_take, hslen]
      omega
    have hsorted := sortLe_sorted leActivity leActivity_trans leActivity_total
      (get_by_device st d)
    rw [← List.take_append_drop ((get_by_device st d).length - 5)
      (sortLe leActivity (get_by_device st d))] at hsorted
    have hpw := (List.pairwise_append.mp hsorted).2.2
    have hidsub : List.Sublist ((get_by_device st d).map Session.session_id)
        (st.deviceIndex d) :=
      filterMap_sessions_ids_sublist st (st.deviceIndex d) hco
    have hidnd : ((get_by_device st d).map Session.session_id).Nodup :=
      hidsub.nodup hnd
    have hsortnd : ((sortLe leActivity (get_by_device st d)).map
        Session.session_id).Nodup :=
      (((sortLe_perm leActivity (get_by_device st d)).map Session.session_id).nodup_iff).mpr
        hidnd
    have hsplit : (sortLe leActivity (get_by_device st d)).map Session.session_id =
        ((sortLe leActivity (get_by_device st d)).take
          ((get_by_device st d).length - 5)).map Session.session_id ++
        ((sortLe leActivity (get_by_device st d)).drop
          ((get_by_device st d).length - 5)).map Session.session_id := by
      rw [← List.map_append, List.take_append_drop]
    rw [hsplit] at hsortnd
    have hdisj := (List.nodup_append.mp hsortnd).2.2
    refine ⟨by rw [hclean]; exact htakelen, ?_, ?_, ?_, ?_⟩
    · intro x hx y hy
      exact hpw x hx y hy
    · intro x hx
      rw [hclean]
      rw [foldl_delSession_sessions]
      simp only [if_pos (List.mem_map_of_mem Session.session_id hx)]
    · intro y hy
      rw [hclean]
      rw [foldl_delSession_sessions]
      have hnot : y.session_id ∉ ((sortLe leActivity (get_by_device st d)).take
          ((get_by_device st d).length - 5)).map Session.session_id := by
        intro hmem
        exact hdisj hmem (List.mem_map_of_mem Session.session_id hy)
      rw [if_neg hnot]
      have hyL : y ∈ get_by_device st d := by
        have : y ∈ sortLe leActivity (get_by_device st d) :=
          List.mem_of_mem_drop hy
        exact (sortLe_mem leActivity (get_by_device st d) y).mp this
      obtain ⟨sid, hsidmem, hsid⟩ := List.mem_filterMap.mp hyL
      have := hco sid hsidmem y hsid
      rw [this]
      exact hsid
    · rw [List.length_drop, hslen]
      omega

/-- Witness for C7 on `sixSessStore` (6 live sessions): one deletion, the
oldest (`"a"`) removed, the newest (`"d"`) untouched. -/
theorem cleanupDevice_keeps_5_most_recent_witness :
    (cleanup_device_sessions sixSessStore "dev" 5).2 =
      (get_by_device sixSessStore "dev").length - 5 ∧
    (cleanup_device_sessions sixSessStore "dev" 5).1.sessions "a" = none ∧
    (cleanup_device_sessions sixSessStore "dev" 5).1.sessions "d" =
      some (guestSess "d" "dev" "2024-01-06") := by
  have hco : ∀ sid ∈ sixSessStore.deviceIndex "dev",
      ∀ s, sixSessStore.sessions sid = some s → s.session_id = sid := by
    intro sid hsid s hs
    have hmem : sid ∈ ["a", "b", "c", "d", "e", "f"] := hsid
    fin_cases hmem <;>
      (simp_all [sixSessStore, guestSess]
       subst hs
       rfl)
  have h := (cleanupDevice_keeps_5_most_recent sixSessStore "dev" (by decide) hco).2
    (by decide)
  refine ⟨h.1, ?_, ?_⟩
  · have := h.2.2.1 (guestSess "a" "dev" "2024-01-01") (by decide)
    simpa [guestSess] using this
  · have := h.2.2.2.1 (guestSess "d" "dev" "2024-01-06") (by decide)
    simpa [guestSess] using this

theorem truthy_isSome (o : Option String) (h : truthy o = true) : o.isSome = true := by
  cases o <;> simp_all [truthy]

theorem invOwner_of_sessions_eq (st1 st2 : Store) (h : st2.sessions = st1.sessions)
    (hinv : InvOwner st1) : InvOwner st2 := by
  intro q s hq
  rw [h] at hq
  exact hinv q s hq

theorem invOwner_setex (st : Store) (sid : String) (ttl : Nat) (s : Session)
    (hinv : InvOwner st) (hs : s.user_id.isSome = true ∨ s.device_id.isSome = true) :
    InvOwner (st.setexSession sid ttl s) := by
  intro q s' hq
  simp only [Store.setexSession] at hq
  by_cases hqs : q = sid
  · subst hqs
    rw [upd_same, Option.some.injEq] at hq
    subst hq
    exact hs
  · rw [upd_other _ _ _ _ hqs] at hq
    exact hinv q s' hq

theorem invOwner_create_ok (ttl : Nat) (st : Store) (u d s : Option String)
    (freshId now : String) (st2 : Store) (data : Session) (hinv : InvOwner st)
    (h : create ttl st u d s freshId now = Except.ok (st2, data)) : InvOwner st2 := by
  by_cases hu : truthy u = true <;> by_cases hd : truthy d = true <;>
    simp only [create, hu, hd, Bool.not_true, Bool.not_false, Bool.false_and,
      Bool.and_false, Bool.and_true, Bool.true_and, Bool.and_self, if_true, if_false,
      reduceCtorEq] at h <;>
    (rw [Except.ok.injEq, Prod.mk.injEq] at h
     obtain ⟨hst2, hdata⟩ := h
     subst hst2
     subst hdata) <;>
    (apply invOwner_of_sessions_eq (st.setexSession
        (if truthy s = true then s.getD "" else freshId) ttl
        { session_id := if truthy s = true then s.getD "" else freshId
          user_id := u
          device_id := d
          is_authenticated := u.isSome
          created_at := now
          last_activity := now
          messages := []
          context := []
          guest_info := none
          upgraded_at := none }) _ (by simp [Store.expireUser, Store.expireDevice])
     apply invOwner_setex _ _ _ _ hinv) <;>
    first
      | exact Or.inl (truthy_isSome u hu)
      | exact Or.inr (truthy_isSome d hd)

theorem invOwner_upgrade_ok (ttl : Nat) (st : Store) (sid uid now : String)
    (st2 : Store) (s2 : Session) (hinv : InvOwner st)
    (h : upgrade_to_authenticated ttl st sid uid now = Except.ok (st2, s2)) :
    InvOwner st2 := by
  cases h0 : st.sessions sid with
  | none => simp [upgrade_to_authenticated, Store.getSession, h0] at h
  | some s0 =>
    simp only [upgrade_to_authenticated, Store.getSession, h0, update] at h
    rw [Except.ok.injEq, Prod.mk.injEq] at h
    obtain ⟨hst2, _⟩ := h
    subst hst2
    refine invOwner_setex _ sid ttl _ ?_ ?_
    · exact invOwner_of_sessions_eq st _ (by simp [Store.expireUser]) hinv
    · exact Or.inl rfl

theorem invOwner_migrateList (ttl : Nat) (uid now : String) (l : List String) :
    ∀ st, InvOwner st → InvOwner (migrateList ttl uid now st l) := by
  induction l with
  | nil => intro st h; exact h
  | cons sid rest ih =>
    intro st h
    cases hm : upgrade_to_authenticated ttl st sid uid now with
    | error e => simpa [migrateList, hm] using h
    | ok p =>
      obtain ⟨st2, s2⟩ := p
      have h2 := invOwner_upgrade_ok ttl st sid uid now st2 s2 h hm
      simpa [migrateList, hm] using ih st2 h2

/-- C8 counterexample: after upgrading the guest session of `oneSessStore` to
user `"u1"`, the stored record has BOTH `user_id` and `device_id` set — the
device id is not cleared — so "guest-owned or user-owned, never both" is false
at this input. -/
theorem owner_never_both_counterexample :
    upSess.user_id = some "u1" ∧ upSess.device_id = some "d1" ∧
    upStore.sessions "s1" = some upSess := by
  decide

/-- C8 (amended): every stored session always has a non-empty owner (at least
one of `user_id` / `device_id` is set) and this is preserved by every
operation, including create; `upgrade_to_authenticated` only moves guest→user:
it sets `user_id` and `is_authenticated` while keeping `device_id`, so after an
upgrade both identity fields may be set simultaneously. -/
theorem owner_invariant_preserved (ttl : Nat) (st : Store) (hinv : InvOwner st) :
    (∀ op, InvOwner (applyOp ttl st op)) ∧
    (∀ sid uid now s0 st2 s2, st.sessions sid = some s0 →
      upgrade_to_authenticated ttl st sid uid now = Except.ok (st2, s2) →
      s2.user_id = some uid ∧ s2.device_id = s0.device_id ∧
      s2.is_authenticated = true) := by
  constructor
  · intro op
    cases op with
    | opCreate u d s f now =>
      simp only [applyOp]
      cases hc : create ttl st u d s f now with
      | error e => exact hinv
      | ok p => exact invOwner_create_ok ttl st u d s f now p.1 p.2 hinv (by rw [hc])
    | opAddMessage sid r c mts now md =>
      simp only [applyOp]
      cases h0 : st.sessions sid with
      | none => simpa [add_message, Store.getSession, h0] using hinv
      | some s0 =>
        simp only [add_message, Store.getSession, h0]
        refine invOwner_setex _ _ _ _ hinv ?_
        exact hinv sid s0 h0
    | opUpgrade sid u now =>
      simp only [applyOp]
      cases hc : upgrade_to_authenticated ttl st sid u now with
      | error e => exact hinv
      | ok p => exact invOwner_upgrade_ok ttl st sid u now p.1 p.2 hinv (by rw [hc])
    | opSetGuestInfo sid info now =>
      simp only [applyOp]
      cases h0 : st.sessions sid with
      | none => simpa [set_guest_info, Store.getSession, h0] using hinv
      | some s0 =>
        simp only [set_guest_info, Store.getSession, h0, update]
        refine invOwner_setex _ _ _ _ hinv ?_
        exact hinv sid s0 h0
    | opExtendTtl sid =>
      simp only [applyOp, extend_ttl]
      split
      · exact invOwner_of_sessions_eq st _ rfl hinv
      · exact hinv
    | opCleanup d k =>
      simp only [applyOp, cleanup_device_sessions]
      split
      · exact hinv
      · intro q s hq
        rw [foldl_delSession_sessions] at hq
        set dels := (if k = 0 then ([] : List Session)
          else (sortLe leActivity (get_by_device st d)).take
            ((sortLe leActivity (get_by_device st d)).length - k)) with hdels
        by_cases hm : q ∈ dels.map Session.session_id
        · rw [if_pos hm] at hq
          exact absurd hq (by simp)
        · rw [if_neg hm] at hq
          exact hinv q s hq
    | opMigrate d u now =>
      simp only [applyOp, migrate_device_sessions]
      exact invOwner_migrateList ttl u now _ st hinv
  · intro sid uid now s0 st2 s2 h0 h
    simp only [upgrade_to_authenticated, Store.getSession, h0, update] at h
    rw [Except.ok.injEq, Prod.mk.injEq] at h
    obtain ⟨_, hs2⟩ := h
    subst hs2
    exact ⟨rfl, rfl, rfl⟩

/-- Witness for C8's amended theorem: the invariant holds after creating a
guest session in the empty store, and the concrete upgrade of `oneSessStore`
keeps the device id while setting the user id. -/
theorem owner_invariant_preserved_witness :
    InvOwner (applyOp 1800 emptyStore (Op.opCreate none (some "d1") none "s1" "t0")) ∧
    (upSess.user_id = some "u1" ∧
      upSess.device_id = (guestSess "s1" "d1" "t0").device_id ∧
      upSess.is_authenticated = true) := by
  have hempty : InvOwner emptyStore := by
    intro sid s h
    simp [emptyStore] at h
  have h1 := (owner_invariant_preserved 1800 emptyStore hempty).1
    (Op.opCreate none (some "d1") none "s1" "t0")
  have hone : InvOwner oneSessStore := by
    intro sid s h
    by_cases hs : sid = "s1"
    · subst hs
      right
      have : s = guestSess "s1" "d1" "t0" := by
        have h2 : oneSessStore.sessions "s1" = some (guestSess "s1" "d1" "t0") := by rfl
        rw [h2, Option.some.injEq] at h
        exact h.symm
      rw [this]
      rfl
    · exfalso
      have h2 : oneSessStore.sessions sid = none := by
        simp [oneSessStore, create, truthy, Store.setexSession, Store.expireDevice,
          Store.saddDevice, emptyStore, upd, hs]
      rw [h2] at h
      exact Option.noConfusion h
  have h2 := (owner_invariant_preserved 1800 oneSessStore hone).2 "s1" "u1" "t5"
    (guestSess "s1" "d1" "t0") upStore upSess rfl rfl
  exact ⟨h1, h2⟩

/-- Witness for C3 at a concrete identity and empty store. -/
theorem rateLimit_first10_counts_then_reject_witness :
    (rateTrace "device-1" 30 10 60 emptyStore 11).2 =
      [Except.ok 1, Except.ok 2, Except.ok 3, Except.ok 4, Except.ok 5, Except.ok 6,
       Except.ok 7, Except.ok 8, Except.ok 9, Except.ok 10, Except.error ()] ∧
    (rateTrace "device-1" 30 10 60 emptyStore 11).1.rateCount (rateKey "device-1" 30) =
      some 11 :=
  rateLimit_first10_counts_then_reject emptyStore "device-1" 30 rfl

end ChatShop
